import Mathlib

/-!
# Verification of the Slip gesture library (slip.ts)

A shallow embedding of the gesture state machine, the reorder placement
engine and the swipe/reorder event computations of `src/slip.ts`, with
theorems checking the natural-language specification against the code.

Pixel coordinates and timestamps are modelled as rationals (the source
uses JS numbers; all decision logic is ordered-field arithmetic).
DOM nodes are modelled by a numeric identity plus the fields the code
reads (`nodeType`, `offsetTop`, `offsetHeight`).
-/

namespace Slip

/-- A pointer position sample `{x, y, time}` (source: `IPosition`). -/
structure Pos where
  x : ℚ
  y : ℚ
  time : ℚ
deriving DecidableEq, Repr

/-- The state constructors of the gesture state machine
(`Slip.prototype.states`): `idle`, `undecided`, `swipe`, `reorder`. -/
inductive StateId where
  | idle
  | undecided
  | swipe
  | reorder
deriving DecidableEq, Repr

/-- A DOM child node as read by `findIndex`: its `nodeType` and an identity
used for the `nodes[i] === target.node` comparison. -/
structure DomNode where
  nodeType : Nat
  id : Nat
deriving DecidableEq, Repr

/-- Loop body of `findIndex` (src/slip.ts lines 204-218): walks the node
list carrying `originalIndex` and `listCount`; element-type nodes
(`nodeType === 1`) bump `listCount`, and when the target node is met
`originalIndex` is set to `listCount - 1`. -/
def findIndexAux (tid : Nat) : List DomNode → Nat → Nat → Nat
  | [], originalIndex, _ => originalIndex
  | n :: rest, originalIndex, listCount =>
    if n.nodeType = 1 then
      let listCount' := listCount + 1
      let originalIndex' := if n.id = tid then listCount' - 1 else originalIndex
      findIndexAux tid rest originalIndex' listCount'
    else
      findIndexAux tid rest originalIndex listCount

/-- `findIndex(target, nodes)` from src/slip.ts lines 204-218:
`originalIndex` starts at 0, `listCount` at 0. -/
def findIndex (tid : Nat) (nodes : List DomNode) : Nat :=
  findIndexAux tid nodes 0 0

/-- Number of element-type nodes (`nodeType === 1`) in a node list. -/
def elemCount (nodes : List DomNode) : Nat :=
  (nodes.filter (fun n => decide (n.nodeType = 1))).length

/-- The `slip:*` lifecycle notifications dispatched by the state machine,
with the payloads the source attaches (`detail`). Directions are the
strings computed by `getAbsoluteMovement`. -/
inductive Ev where
  | beforewait
  | beforereorder
  | beforeswipe (directionX directionY : String)
  | animateswipe (x : ℚ) (originalIndex : Nat)
  | cancelswipe
  | swipe (direction : String) (originalIndex : Nat)
  | afterswipe
  | tap
  | reorder (spliceIndex : Nat) (originalIndex : Nat) (insertBefore : Option Nat)
deriving DecidableEq, Repr

/-- One entry of the reorder state's `otherNodes` array (src/slip.ts
lines 414-424): the sibling node (by identity) and its recorded signed
distance `pos` from the subject's vertical center. -/
structure ONode where
  node : Nat
  pos : ℚ
deriving DecidableEq, Repr

/-- The upward scan of `reorder`'s `onEnd` (src/slip.ts lines 504-510):
`for (i = 0; i < otherNodes.length; i++) { if (otherNodes[i].pos > move.y)
break; } spliceIndex = i` — the index of the first entry whose `pos`
exceeds `dy`, or the length when none does. -/
def upScan (dy : ℚ) : List ONode → Nat
  | [] => 0
  | o :: rest => if o.pos > dy then 0 else upScan dy rest + 1

/-- The downward scan of `reorder`'s `onEnd` (src/slip.ts lines 511-517):
`for (i = otherNodes.length - 1; i >= 0; i--) { if (otherNodes[i].pos <
move.y) break; } spliceIndex = i + 1` — one past the index of the last
entry whose `pos` is below `dy`, or `0` when none is (the loop runs to
`i = -1`). Stated as a structural recursion: on `o :: rest`, if the scan
of `rest` stopped at some entry its index shifts by one; otherwise the
head is the last candidate. -/
def downScan (dy : ℚ) : List ONode → Nat
  | [] => 0
  | o :: rest =>
    let r := downScan dy rest
    if r ≠ 0 then r + 1
    else if o.pos < dy then 1 else 0

/-- `spliceIndex` as computed by `reorder`'s `onEnd` (src/slip.ts lines
503-518) from the `otherNodes` snapshot and the net vertical movement
`move.y`. -/
def spliceIndexOf (otherNodes : List ONode) (dy : ℚ) : Nat :=
  if dy < 0 then upScan dy otherNodes else downScan dy otherNodes

/-- The `insertBefore` payload field (src/slip.ts line 523):
`otherNodes[spliceIndex] ? otherNodes[spliceIndex].node : undefined`. -/
def insertBeforeOf (otherNodes : List ONode) (si : Nat) : Option Nat :=
  (otherNodes[si]?).map ONode.node

/-- A DOM child node as read while building the reorder snapshot
(src/slip.ts lines 415-424): `nodeType`, identity, `offsetTop`,
`offsetHeight`. -/
structure RNode where
  nodeType : Nat
  id : Nat
  top : ℚ
  height : ℚ
deriving DecidableEq, Repr

/-- The subject's vertical center, `zero` in the source (src/slip.ts line
413): `this.target.node.offsetTop + this.target.height / 2`. -/
def reorderZero (subjTop subjHeight : ℚ) : ℚ :=
  subjTop + subjHeight / 2

/-- The recorded distance of one sibling (src/slip.ts line 422):
`t + (t < zero ? nodes[i].offsetHeight : 0) - zero` where `t` is the
sibling's `offsetTop`. -/
def siblingPos (zero top height : ℚ) : ℚ :=
  top + (if top < zero then height else 0) - zero

/-- The `otherNodes` snapshot built on entry to `reorder` (src/slip.ts
lines 414-424): every element-type node other than the subject, tagged
with its recorded distance. -/
def buildOtherNodes (tid : Nat) (zero : ℚ) : List RNode → List ONode
  | [] => []
  | n :: rest =>
    if n.nodeType ≠ 1 ∨ n.id = tid then buildOtherNodes tid zero rest
    else { node := n.id, pos := siblingPos zero n.top n.height } :: buildOtherNodes tid zero rest

/-- The per-session motion bookkeeping read by `getTotalMovement`
(src/slip.ts lines 822-829): the three position samples plus the scroll
ancestor's current and session-start scroll offsets. -/
structure Motion where
  startPosition : Pos
  latestPosition : Pos
  previousPosition : Pos
  scrollTop : ℚ
  origScrollTop : ℚ
deriving DecidableEq, Repr

/-- `getTotalMovement` (src/slip.ts lines 822-829): the scroll delta is
added to the vertical component only. -/
def getTotalMovement (m : Motion) : Pos :=
  let scrollOffset := m.scrollTop - m.origScrollTop
  { x := m.latestPosition.x - m.startPosition.x
    y := m.latestPosition.y - m.startPosition.y + scrollOffset
    time := m.latestPosition.time - m.startPosition.time }

/-- Result of `getAbsoluteMovement` (src/slip.ts lines 831-840). -/
structure AbsMove where
  x : ℚ
  y : ℚ
  time : ℚ
  directionX : String
  directionY : String
deriving DecidableEq, Repr

/-- `getAbsoluteMovement` (src/slip.ts lines 831-840). -/
def getAbsoluteMovement (m : Motion) : AbsMove :=
  let move := getTotalMovement m
  { x := |move.x|
    y := |move.y|
    time := move.time
    directionX := if move.x < 0 then "left" else "right"
    directionY := if move.y < 0 then "up" else "down" }

/-- The recognized options after the constructor's defaulting
(src/slip.ts lines 162-166). -/
structure SOptions where
  keepSwipingPercent : ℚ
  minimumSwipeVelocity : ℚ
  minimumSwipeTime : ℚ
deriving DecidableEq, Repr

/-- Result of a state's `onMove` handler: the state the machine is in
afterwards, the notifications dispatched, and whether the handler
returned `false` (which makes `updatePosition` call `preventDefault`,
src/slip.ts lines 771-775 — the "consumed" signal). -/
structure MoveResult where
  next : StateId
  events : List Ev
  returnedFalse : Bool
deriving DecidableEq, Repr

/-- `undecided`'s `onMove` (src/slip.ts lines 274-294). When the
`beforeswipe` dispatch is vetoed the handler sets the state to idle and
falls through to the remaining checks (the second `setState(idle)` is a
no-op, and the final sideways-scroll check still decides the return
value). `this.target.height || 0` equals `height` whenever `height` is a
number, since `0 || 0 = 0`. -/
def undecidedOnMove (m : Motion) (height : ℚ) (vetoBeforeswipe : Bool) : MoveResult :=
  let move := getAbsoluteMovement m
  if move.x > 20 ∧ move.y < max 100 height then
    if !vetoBeforeswipe then
      { next := StateId.swipe
        events := [Ev.beforeswipe move.directionX move.directionY]
        returnedFalse := true }
    else
      { next := StateId.idle
        events := [Ev.beforeswipe move.directionX move.directionY]
        returnedFalse := decide (move.x > move.y * 1.2) }
  else if move.y > 20 then
    { next := StateId.idle
      events := []
      returnedFalse := decide (move.x > move.y * 1.2) }
  else
    { next := StateId.undecided
      events := []
      returnedFalse := decide (move.x > move.y * 1.2) }

/-- `swipe`'s `onMove` (src/slip.ts lines 335-350): while
`this.target.height` is truthy and the vertical drift stays below
`height + 20`, dispatch `animateswipe` and return `false`; otherwise
dispatch `cancelswipe` and go idle. The `vetoAnimate` flag only
suppresses the visual offset, which the embedding does not track. -/
def swipeOnMove (m : Motion) (height : ℚ) (originalIndex : Nat) (vetoAnimate : Bool) : MoveResult :=
  let move := getTotalMovement m
  if height ≠ 0 ∧ |move.y| < height + 20 then
    { next := StateId.swipe
      events := [Ev.animateswipe move.x originalIndex]
      returnedFalse := true }
  else
    { next := StateId.idle
      events := [Ev.cancelswipe]
      returnedFalse := false }

/-- Result of `swipe`'s `onEnd`. -/
structure SwipeEndResult where
  events : List Ev
  swipeSuccess : Bool
  next : StateId
  ret : Bool
deriving DecidableEq, Repr

/-- `swipe`'s `onEnd` (src/slip.ts lines 354-375). Note `swipedPercent`
is computed from `startPosition.x - previousPosition.x` (the velocity
sample), and the percent branch only applies when `keepSwipingPercent`
is truthy (nonzero). `swipeSuccess` is set only when the `swipe`
dispatch is not vetoed; the handler returns `!swiped`. -/
def swipeOnEnd (m : Motion) (opts : SOptions) (clientWidth : ℚ) (originalIndex : Nat)
    (vetoSwipe : Bool) : SwipeEndResult :=
  let move := getAbsoluteMovement m
  let velocity := move.x / move.time
  let swipedPercent := |(m.startPosition.x - m.previousPosition.x) / clientWidth| * 100
  if (velocity > opts.minimumSwipeVelocity ∧ move.time > opts.minimumSwipeTime) ∨
      (opts.keepSwipingPercent ≠ 0 ∧ swipedPercent > opts.keepSwipingPercent) then
    { events := [Ev.swipe move.directionX originalIndex]
      swipeSuccess := !vetoSwipe
      next := StateId.idle
      ret := false }
  else
    { events := [Ev.cancelswipe]
      swipeSuccess := false
      next := StateId.idle
      ret := true }

/-- Result of `reorder`'s `onEnd`. -/
structure ReorderEndResult where
  events : List Ev
  next : StateId
  ret : Bool
deriving DecidableEq, Repr

/-- `reorder`'s `onEnd` (src/slip.ts lines 501-528): computes the splice
index from the snapshot and net vertical movement, dispatches exactly one
`reorder` notification (its return value — the `vetoReorder` flag here —
is not consulted), sets the state to idle, and returns `false`. -/
def reorderOnEnd (m : Motion) (otherNodes : List ONode) (originalIndex : Nat)
    (vetoReorder : Bool) : ReorderEndResult :=
  let move := getTotalMovement m
  let si := spliceIndexOf otherNodes move.y
  { events := [Ev.reorder si originalIndex (insertBeforeOf otherNodes si)]
    next := StateId.idle
    ret := false }

/-- The caller-side meaning of an `onEnd` return value (src/slip.ts lines
804-820): `onMouseUp`/`onTouchEnd` call `e.preventDefault()` exactly when
the handler returned `false` — the same value that `updatePosition` treats
as the "consumed" signal for `onMove`. -/
def onEndPreventsDefault (ret : Bool) : Bool :=
  ret == false

/-- The session's `target` record as built by `setTarget` (src/slip.ts
lines 749-756), with the item height that the non-idle state
constructors read from `offsetHeight` (layout is assumed stable for the
session, a documented precondition). -/
structure TData where
  originalTarget : Nat
  node : Nat
  scrollContainer : Nat
  origScrollTop : ℚ
  origScrollHeight : ℚ
  height : ℚ
deriving DecidableEq, Repr

/-- The whole-session state of one `Slip` instance, as far as the gesture
state machine reads and writes it: the identity of the current state's
constructor (`this.state.ctor`), the target, the mouse/touch bookkeeping
flags, the three motion samples, the scroll ancestor's current offset,
and whether the `undecided` hold timer (src/slip.ts line 262) and the
`reorder` mouse-outside grace timer (line 493) are armed. State-local
closure data that no claim reads through the machine (the `otherNodes`
snapshot, the captured `originalIndex`, `swipeSuccess`) is verified
through the per-state handler functions instead. -/
structure Sess where
  stateCtor : StateId
  target : Option TData
  usingTouch : Bool
  mouseHandlersAttached : Bool
  canPreventScrolling : Bool
  startPosition : Pos
  latestPosition : Pos
  previousPosition : Pos
  scrollTop : ℚ
  holdTimerArmed : Bool
  graceTimerArmed : Bool
deriving DecidableEq, Repr

/-- The session's motion bookkeeping as read by `getTotalMovement`:
`origScrollTop` comes from the target (0 when none — the handlers only
run with a target present). -/
def Sess.motionOf (s : Sess) : Motion :=
  { startPosition := s.startPosition
    latestPosition := s.latestPosition
    previousPosition := s.previousPosition
    scrollTop := s.scrollTop
    origScrollTop := match s.target with | some t => t.origScrollTop | none => 0 }

/-- `this.target.height` (0 when no target — only read with one present). -/
def Sess.heightOf (s : Sess) : ℚ :=
  match s.target with | some t => t.height | none => 0

/-- What ran during a transition, for the no-op claims: a state's
`leaveState` cleanup, a state constructor, or a dispatched notification. -/
inductive Act where
  | leftState (st : StateId)
  | entered (st : StateId)
  | dispatched (e : Ev)
deriving DecidableEq, Repr

/-- The current state's `leaveState` cleanup (run by `setState`,
src/slip.ts line 599): `idle` registers none; `undecided` clears the hold
timer (line 273); `swipe`'s runs animations only (lines 318-333);
`reorder` clears the grace timer and restores styling (lines 466-485). -/
def leaveState (s : Sess) : Sess :=
  match s.stateCtor with
  | StateId.idle => s
  | StateId.undecided => { s with holdTimerArmed := false }
  | StateId.swipe => s
  | StateId.reorder => { s with graceTimerArmed := false }

/-- The `Act`s of the current state's `leaveState` (none for `idle`,
which registers no cleanup — src/slip.ts lines 247-249). -/
def leaveActs (st : StateId) : List Act :=
  match st with
  | StateId.idle => []
  | st => [Act.leftState st]

/-- `idleStateInit` (src/slip.ts lines 239-250): removes the mouse
handlers, releases the target, clears `usingTouch`. -/
def idleInit (s : Sess) : Sess :=
  { s with mouseHandlersAttached := false
           target := none
           usingTouch := false
           stateCtor := StateId.idle }

/-- `setState(this.states.idle)` — which is exactly `cancel()`
(src/slip.ts line 171) — with the log of what ran: per `setState`
(lines 596-609), when the current state's constructor is already `idle`
the call returns immediately (nothing runs, nothing is dispatched);
otherwise the current state's `leaveState` runs and then `idleStateInit`
(which dispatches nothing). -/
def cancelWithActs (s : Sess) : Sess × List Act :=
  if s.stateCtor = StateId.idle then (s, [])
  else (idleInit (leaveState s), leaveActs s.stateCtor ++ [Act.entered StateId.idle])

/-- `cancel()` called `n` times in a row, accumulating everything that ran. -/
def cancelIter : Nat → Sess → Sess × List Act
  | 0, s => (s, [])
  | n + 1, s =>
    let r := cancelWithActs s
    let r' := cancelIter n r.1
    (r'.1, r.2 ++ r'.2)

/-- The session after `setState(this.states.idle)`, without the log. -/
def goIdle (s : Sess) : Sess :=
  (cancelWithActs s).1

/-- `undecidedStateInit` (src/slip.ts lines 252-302), state effects only:
dispatches `beforewait`; if that is vetoed, dispatches `beforereorder`
and, unless that too is vetoed, transitions to `reorder` (re-entrant
`setState`, lines 602-608); otherwise arms the 300ms hold timer. -/
def undecidedEntry (s : Sess) (vetoWait vetoReorder : Bool) : Sess :=
  if vetoWait then
    if !vetoReorder then { s with stateCtor := StateId.reorder }
    else { s with stateCtor := StateId.undecided }
  else
    { s with stateCtor := StateId.undecided, holdTimerArmed := true }

/-- `startAtPosition` (src/slip.ts lines 760-763): seeds the three motion
samples and calls `setState(this.states.undecided)` — which returns
immediately if the machine is already in `undecided` (line 598), and
otherwise runs the current state's `leaveState` and then
`undecidedStateInit`. -/
def startAtPosition (s : Sess) (pos : Pos) (vetoWait vetoReorder : Bool) : Sess :=
  let s1 := { s with startPosition := pos, previousPosition := pos, latestPosition := pos }
  if s1.stateCtor = StateId.undecided then s1
  else undecidedEntry (leaveState s1) vetoWait vetoReorder

/-- The current state's `onMove` dispatch inside `updatePosition`
(src/slip.ts line 771): idle registers no `onMove`; `undecided` runs
`undecidedOnMove` (with its possible transitions); `swipe` stays swiping
while the vertical drift is within `height + 20` and otherwise cancels
to idle (lines 335-350); `reorder` clears the pending mouse-outside
timer and stays (lines 434-461). -/
def updatePositionCore (s1 : Sess) (vetoSwipeStart : Bool) : Sess :=
  match s1.stateCtor with
  | StateId.idle => s1
  | StateId.undecided =>
    let r := undecidedOnMove s1.motionOf s1.heightOf vetoSwipeStart
    if r.next = StateId.idle then goIdle s1
    else if r.next = StateId.undecided then s1
    else { leaveState s1 with stateCtor := r.next }
  | StateId.swipe =>
    let move := getTotalMovement s1.motionOf
    if s1.heightOf ≠ 0 ∧ |move.y| < s1.heightOf + 20 then s1 else goIdle s1
  | StateId.reorder => { s1 with graceTimerArmed := false }

/-- The rest of `updatePosition` (src/slip.ts lines 765-781): the guard
on a missing target, the `latestPosition` update, the state's `onMove`
(via `updatePositionCore`), and the 100ms velocity-sample advance. -/
def updatePosition (s : Sess) (pos : Pos) (vetoSwipeStart : Bool) : Sess :=
  if s.target.isNone then s
  else
    let s2 := updatePositionCore { s with latestPosition := pos } vetoSwipeStart
    if pos.time - s2.previousPosition.time > 100 then { s2 with previousPosition := pos }
    else s2

/-- The current state's `onEnd`, state effects only: `idle` registers
none; `undecided` dispatches `tap` and goes idle (src/slip.ts lines
297-301); `swipe` always ends in `setState(idle)` (line 373); `reorder`
always ends in `setState(idle)` (line 526). -/
def onEndOf (s : Sess) : Sess :=
  match s.stateCtor with
  | StateId.idle => s
  | StateId.undecided => goIdle s
  | StateId.swipe => goIdle s
  | StateId.reorder => goIdle s

/-- The body of the `undecided` hold timer (src/slip.ts lines 262-269),
run on the session with the fired timer disarmed: when scroll prevention
is still available and total movement stayed small (`x < 15`, `y < 25`),
`beforereorder` is dispatched and, unless vetoed, the state becomes
`reorder` (the `undecided` state's `leaveState` runs first). -/
def holdTimerBody (s1 : Sess) (vr : Bool) : Sess :=
  if s1.canPreventScrolling = true ∧ (getAbsoluteMovement s1.motionOf).x < 15 ∧
      (getAbsoluteMovement s1.motionOf).y < 25 then
    if vr then s1 else { leaveState s1 with stateCtor := StateId.reorder }
  else s1

/-- One external callback delivered to the session: the platform input
events (with the target-resolution outcome and the listener veto
decisions abstracted as oracle fields), plus the two timer callbacks. -/
inductive Inp where
  | touchStart (multi : Bool) (resolved : Option TData) (pos : Pos) (vetoWait vetoReorder : Bool)
  | mouseDown (button : Nat) (resolved : Option TData) (pos : Pos) (vetoWait vetoReorder : Bool)
  | touchMove (pos : Pos) (vetoSwipeStart : Bool)
  | mouseMove (pos : Pos) (vetoSwipeStart : Bool)
  | touchEnd (multi : Bool)
  | mouseUp (button : Nat)
  | inputCancel
  | holdTimerFire (vetoReorder : Bool)
  | mouseLeaveWindow
  | graceTimerFire

/-- One input-event callback of the session, embedded from the handlers
of src/slip.ts:
`onTouchStart` (713-731): sets `usingTouch` and `canPreventScrolling`;
more than one touch forces idle; a failed `setTarget` forces idle
(741-737 via 735-738); success stores the target and calls
`startAtPosition`.
`onMouseDown` (698-711): ignored while `usingTouch` or for a secondary
button; otherwise resolves the target, attaches the mouse handlers, and
starts.
`onTouchMove` (792-802): `updatePosition`, then clears
`canPreventScrolling`. `onMouseMove` (783-790): `updatePosition`.
`onTouchEnd` (813-820): a second touch cancels, otherwise the state's
`onEnd` runs. `onMouseUp` (804-811): ignored while `usingTouch` or for a
secondary button, otherwise `onEnd`.
`cancel` (171): `setState(idle)`.
The hold timer (262-269): only alive while `undecided` (its state's
`leaveState` clears it); fires the reorder-start check.
`onMouseLeave` (687-696): ignored while `usingTouch`; `undecided` goes
idle (296), `swipe` runs its `onEnd` (352), `reorder` arms the 700ms
grace timer (489-499).
The grace timer (493-497): only alive while `reorder`; calls `cancel`. -/
def step (s : Sess) (inp : Inp) : Sess :=
  match inp with
  | Inp.touchStart multi resolved pos vw vr =>
    let s1 := { s with usingTouch := true, canPreventScrolling := true }
    if multi then goIdle s1
    else
      match resolved with
      | none => goIdle s1
      | some t => startAtPosition { s1 with target := some t } pos vw vr
  | Inp.mouseDown button resolved pos vw vr =>
    if s.usingTouch ∨ button ≠ 0 then s
    else
      match resolved with
      | none => goIdle s
      | some t =>
        let s1 := { s with target := some t
                           mouseHandlersAttached := true
                           canPreventScrolling := true }
        startAtPosition s1 pos vw vr
  | Inp.touchMove pos v => { updatePosition s pos v with canPreventScrolling := false }
  | Inp.mouseMove pos v => updatePosition s pos v
  | Inp.touchEnd multi => if multi then goIdle s else onEndOf s
  | Inp.mouseUp button => if s.usingTouch ∨ button ≠ 0 then s else onEndOf s
  | Inp.inputCancel => goIdle s
  | Inp.holdTimerFire vr =>
    if s.stateCtor = StateId.undecided ∧ s.holdTimerArmed then
      holdTimerBody { s with holdTimerArmed := false } vr
    else s
  | Inp.mouseLeaveWindow =>
    if s.usingTouch then s
    else
      match s.stateCtor with
      | StateId.idle => s
      | StateId.undecided => goIdle s
      | StateId.swipe => onEndOf s
      | StateId.reorder => { s with graceTimerArmed := true }
  | Inp.graceTimerFire =>
    if s.stateCtor = StateId.reorder ∧ s.graceTimerArmed then
      goIdle { s with graceTimerArmed := false }
    else s

/-- The claimed session invariant: the target exists iff the machine is
not idle. -/
def SessInv (s : Sess) : Prop :=
  s.target.isSome = true ↔ s.stateCtor ≠ StateId.idle

/-- A freshly constructed session (src/slip.ts line 182:
`this.setState(this.states.idle)` from the prototype defaults). -/
def initSess : Sess :=
  { stateCtor := StateId.idle
    target := none
    usingTouch := false
    mouseHandlersAttached := false
    canPreventScrolling := false
    startPosition := ⟨0, 0, 0⟩
    latestPosition := ⟨0, 0, 0⟩
    previousPosition := ⟨0, 0, 0⟩
    scrollTop := 0
    holdTimerArmed := false
    graceTimerArmed := false }

/-! ## Placement engine lemmas -/

/-- The spec's description of the upward case: `i` is the position of the
first snapshot whose recorded distance exceeds `dy`, or the snapshot
count when none exceeds it. -/
def FirstExceeding (l : List ONode) (dy : ℚ) (i : Nat) : Prop :=
  i ≤ l.length ∧
  (∀ j o, j < i → l[j]? = some o → ¬ dy < o.pos) ∧
  (∀ o, l[i]? = some o → dy < o.pos)

/-- The spec's description of the downward case: `i` is one past the
position of the last snapshot whose recorded distance is below `dy`, or
`0` when none qualifies. -/
def OnePastLastBelow (l : List ONode) (dy : ℚ) (i : Nat) : Prop :=
  i ≤ l.length ∧
  (∀ j o, i ≤ j → l[j]? = some o → ¬ o.pos < dy) ∧
  (i ≠ 0 → ∃ o, l[i - 1]? = some o ∧ o.pos < dy)

theorem upScan_spec (dy : ℚ) (l : List ONode) : FirstExceeding l dy (upScan dy l) := by
  induction l with
  | nil =>
    refine ⟨Nat.le_refl _, ?_, ?_⟩ <;> intro j <;> simp [upScan] at *
  | cons a rest ih =>
    obtain ⟨ih1, ih2, ih3⟩ := ih
    by_cases h : a.pos > dy
    · refine ⟨by simp [upScan, h], ?_, ?_⟩
      · intro j o hj
        simp [upScan, h] at hj
      · intro o ho
        simp [upScan, h] at ho
        simpa [← ho] using h
    · refine ⟨by simpa [upScan, h, Nat.succ_le_succ_iff] using ih1, ?_, ?_⟩
      · intro j o hj ho
        rw [upScan] at hj
        simp only [h, if_false] at hj
        cases j with
        | zero =>
          simp at ho
          rw [← ho]
          exact h
        | succ j =>
          simp at ho
          exact ih2 j o (Nat.lt_of_succ_lt_succ hj) ho
      · intro o ho
        rw [upScan] at ho
        simp only [h, if_false] at ho
        simp at ho
        exact ih3 o ho

theorem downScan_spec (dy : ℚ) (l : List ONode) : OnePastLastBelow l dy (downScan dy l) := by
  induction l with
  | nil =>
    refine ⟨Nat.le_refl _, ?_, by simp [downScan]⟩
    intro j o _ ho
    simp at ho
  | cons a rest ih =>
    obtain ⟨ih1, ih2, ih3⟩ := ih
    by_cases hr : downScan dy rest ≠ 0
    · have hv : downScan dy (a :: rest) = downScan dy rest + 1 := by
        rw [downScan]; simp [hr]
      refine ⟨?_, ?_, ?_⟩
      · rw [hv]; simpa [Nat.succ_le_succ_iff] using ih1
      · intro j o hj ho
        rw [hv] at hj
        cases j with
        | zero => exact absurd hj (by omega)
        | succ j =>
          simp at ho
          exact ih2 j o (Nat.le_of_succ_le_succ hj) ho
      · intro _
        rw [hv]
        obtain ⟨o, ho, hlt⟩ := ih3 hr
        refine ⟨o, ?_, hlt⟩
        have : downScan dy rest + 1 - 1 = (downScan dy rest - 1) + 1 := by omega
        rw [this]
        simpa using ho
    · push_neg at hr
      by_cases ha : a.pos < dy
      · have hv : downScan dy (a :: rest) = 1 := by
          rw [downScan]; simp [hr, ha]
        refine ⟨by rw [hv]; simp, ?_, ?_⟩
        · intro j o hj ho
          rw [hv] at hj
          cases j with
          | zero => exact absurd hj (by omega)
          | succ j =>
            simp at ho
            exact ih2 j o (by omega) ho
        · intro _
          rw [hv]
          exact ⟨a, by simp, ha⟩
      · have hv : downScan dy (a :: rest) = 0 := by
          rw [downScan]; simp [hr, ha]
        refine ⟨by rw [hv]; simp, ?_, by simp [hv]⟩
        intro j o _ ho
        cases j with
        | zero =>
          simp at ho
          rw [← ho]
          exact ha
        | succ j =>
          simp at ho
          exact ih2 j o (by omega) ho

/-! ## findIndex lemmas -/

theorem findIndexAux_no_match (tid : Nat) (l : List DomNode) (oi lc : Nat)
    (h : ∀ n ∈ l, ¬(n.nodeType = 1 ∧ n.id = tid)) :
    findIndexAux tid l oi lc = oi := by
  induction l generalizing oi lc with
  | nil => rfl
  | cons a rest ih =>
    have ha := h a (List.mem_cons_self a rest)
    have hrest : ∀ n ∈ rest, ¬(n.nodeType = 1 ∧ n.id = tid) :=
      fun n hn => h n (List.mem_cons_of_mem a hn)
    rw [findIndexAux]
    by_cases h1 : a.nodeType = 1
    · have h2 : ¬ a.id = tid := fun h2 => ha ⟨h1, h2⟩
      simp only [h1, if_true, h2, if_false]
      exact ih _ _ hrest
    · simp only [h1, if_false]
      exact ih _ _ hrest

theorem findIndexAux_append_target (tid : Nat) (t : DomNode) (post : List DomNode)
    (ht : t.nodeType = 1) (hid : t.id = tid)
    (hpost : ∀ n ∈ post, ¬(n.nodeType = 1 ∧ n.id = tid)) :
    ∀ (pre : List DomNode) (oi lc : Nat),
      findIndexAux tid (pre ++ t :: post) oi lc = lc + elemCount pre := by
  intro pre
  induction pre with
  | nil =>
    intro oi lc
    rw [List.nil_append, findIndexAux]
    simp only [ht, if_true, hid, if_true, Nat.add_sub_cancel]
    rw [findIndexAux_no_match tid post _ _ hpost]
    simp [elemCount]
  | cons a rest ih =>
    intro oi lc
    rw [List.cons_append, findIndexAux]
    by_cases h1 : a.nodeType = 1
    · simp only [h1, if_true]
      rw [ih]
      simp [elemCount, h1]
      omega
    · simp only [h1, if_false]
      rw [ih]
      simp [elemCount, h1]

/-! ## Snapshot construction lemmas -/

theorem mem_buildOtherNodes (tid : Nat) (zero : ℚ) (nodes : List RNode) (n : RNode)
    (hm : n ∈ nodes) (he : n.nodeType = 1) (hid : n.id ≠ tid) :
    (⟨n.id, siblingPos zero n.top n.height⟩ : ONode) ∈ buildOtherNodes tid zero nodes := by
  induction nodes with
  | nil => cases hm
  | cons a rest ih =>
    rw [buildOtherNodes]
    rcases List.mem_cons.mp hm with rfl | hmem
    · have : ¬(n.nodeType ≠ 1 ∨ n.id = tid) := by
        push_neg
        exact ⟨he, hid⟩
      simp only [this, if_false]
      exact List.mem_cons_self _ _
    · by_cases hc : a.nodeType ≠ 1 ∨ a.id = tid
      · simp only [hc, if_true]
        exact ih hmem
      · simp only [hc, if_false]
        exact List.mem_cons_of_mem _ (ih hmem)

/-! ## Claim theorems -/

/-- C1: for every sibling snapshot list and net vertical displacement
`dy`, the splice index computed by `reorder`'s `onEnd` is, for `dy < 0`,
the position of the first snapshot whose recorded distance exceeds `dy`
(the snapshot count when none exceeds it), and, for `dy ≥ 0`, one past
the last snapshot whose recorded distance is below `dy` (`0` when none
qualifies); `insertBefore` is the node at the splice index in the
snapshot list, or none exactly when the splice index equals the snapshot
count. -/
theorem reorder_placement_spec (l : List ONode) (dy : ℚ) :
    (dy < 0 → FirstExceeding l dy (spliceIndexOf l dy)) ∧
    (0 ≤ dy → OnePastLastBelow l dy (spliceIndexOf l dy)) ∧
    (spliceIndexOf l dy = l.length → insertBeforeOf l (spliceIndexOf l dy) = none) ∧
    (spliceIndexOf l dy < l.length →
      ∃ o, l[spliceIndexOf l dy]? = some o ∧
        insertBeforeOf l (spliceIndexOf l dy) = some o.node) := by
  refine ⟨?_, ?_, ?_, ?_⟩
  · intro hdy
    rw [spliceIndexOf, if_pos hdy]
    exact upScan_spec dy l
  · intro hdy
    rw [spliceIndexOf, if_neg (not_lt.mpr hdy)]
    exact downScan_spec dy l
  · intro hlen
    rw [insertBeforeOf, hlen]
    simp
  · intro hlt
    refine ⟨l[spliceIndexOf l dy], List.getElem?_eq_getElem hlt, ?_⟩
    rw [insertBeforeOf, List.getElem?_eq_getElem hlt]
    rfl

/-- C2, counterexample: the claim says a sibling above the subject gets a
positive recorded distance. For a subject at `offsetTop = 100`, height 20
(center 110) and a sibling above at `offsetTop = 0`, height 20 (its
bottom edge, 20, is above the subject's top), the snapshot records
`20 - 110 = -90`, which is negative. -/
theorem snapshot_distance_counterexample :
    (0 : ℚ) + 20 ≤ 100 ∧
    buildOtherNodes 9 (reorderZero 100 20) [⟨1, 0, 0, 20⟩] = [⟨0, -90⟩] ∧
    siblingPos (reorderZero 100 20) 0 20 < 0 := by
  norm_num [buildOtherNodes, siblingPos, reorderZero]

/-- C2, amended: on entry to Reordering every non-subject element-type
sibling is recorded in the snapshot with a signed distance from the
subject's vertical center such that siblings above the subject get a
NEGATIVE distance measured from their bottom edge, and siblings below
get a POSITIVE distance measured from their top edge (for positive
heights). -/
theorem snapshot_distance_signs (subjTop subjHeight : ℚ) (tid : Nat)
    (nodes : List RNode) (n : RNode)
    (hm : n ∈ nodes) (he : n.nodeType = 1) (hid : n.id ≠ tid)
    (hsh : 0 < subjHeight) (hnh : 0 < n.height) :
    (⟨n.id, siblingPos (reorderZero subjTop subjHeight) n.top n.height⟩ : ONode)
        ∈ buildOtherNodes tid (reorderZero subjTop subjHeight) nodes ∧
    (n.top + n.height ≤ subjTop →
      siblingPos (reorderZero subjTop subjHeight) n.top n.height
          = n.top + n.height - reorderZero subjTop subjHeight ∧
      siblingPos (reorderZero subjTop subjHeight) n.top n.height < 0) ∧
    (subjTop + subjHeight ≤ n.top →
      siblingPos (reorderZero subjTop subjHeight) n.top n.height
          = n.top - reorderZero subjTop subjHeight ∧
      0 < siblingPos (reorderZero subjTop subjHeight) n.top n.height) := by
  refine ⟨mem_buildOtherNodes tid _ nodes n hm he hid, ?_, ?_⟩
  · intro habove
    have hz : n.top < reorderZero subjTop subjHeight := by
      rw [reorderZero]
      linarith
    rw [siblingPos, if_pos hz]
    constructor
    · ring
    · rw [reorderZero]
      linarith
  · intro hbelow
    have hz : ¬ n.top < reorderZero subjTop subjHeight := by
      rw [reorderZero]
      push_neg
      linarith
    rw [siblingPos, if_neg hz]
    constructor
    · ring
    · rw [reorderZero]
      linarith

/-- C2, witness: a concrete reorder entry — subject `offsetTop = 100`,
height 20, one element sibling above (`offsetTop 0`, height 20, id 0)
and one below (`offsetTop 200`, height 30, id 2). -/
theorem snapshot_distance_signs_witness :
    (⟨0, siblingPos (reorderZero 100 20) 0 20⟩ : ONode)
        ∈ buildOtherNodes 9 (reorderZero 100 20) [⟨1, 0, 0, 20⟩, ⟨1, 9, 100, 20⟩, ⟨1, 2, 200, 30⟩] ∧
    ((0 : ℚ) + 20 ≤ 100 →
      siblingPos (reorderZero 100 20) 0 20 = 0 + 20 - reorderZero 100 20 ∧
      siblingPos (reorderZero 100 20) 0 20 < 0) ∧
    ((100 : ℚ) + 20 ≤ 0 →
      siblingPos (reorderZero 100 20) 0 20 = 0 - reorderZero 100 20 ∧
      0 < siblingPos (reorderZero 100 20) 0 20) :=
  snapshot_distance_signs 100 20 9 [⟨1, 0, 0, 20⟩, ⟨1, 9, 100, 20⟩, ⟨1, 2, 200, 30⟩]
    ⟨1, 0, 0, 20⟩ (by simp) rfl (by norm_num) (by norm_num) (by norm_num)

/-- C3, counterexample: for snapshots at distances `[-50, -10, 30, 70]`
(nodes 0..3 in original order) and `dy = 20`, the reverse scan stops at
index 1 (distance `-10 < 20`; `30` and `70` are not below `20`), so the
code computes `spliceIndex = 2` and `insertBefore` = the 3rd snapshot's
node — not `spliceIndex = 3` with the 4th node as the claim states. -/
theorem reorder_example_counterexample :
    (reorderOnEnd ⟨⟨0, 0, 0⟩, ⟨0, 20, 100⟩, ⟨0, 0, 0⟩, 0, 0⟩
        [⟨0, -50⟩, ⟨1, -10⟩, ⟨2, 30⟩, ⟨3, 70⟩] 0 false).events
      = [Ev.reorder 2 0 (some 2)] ∧
    (reorderOnEnd ⟨⟨0, 0, 0⟩, ⟨0, 20, 100⟩, ⟨0, 0, 0⟩, 0, 0⟩
        [⟨0, -50⟩, ⟨1, -10⟩, ⟨2, 30⟩, ⟨3, 70⟩] 0 false).events
      ≠ [Ev.reorder 3 0 (some 3)] := by
  constructor
  · norm_num [reorderOnEnd, getTotalMovement, spliceIndexOf, downScan, insertBeforeOf]
  · norm_num [reorderOnEnd, getTotalMovement, spliceIndexOf, downScan, insertBeforeOf]

/-- C3, amended: for a Reordering session whose sibling snapshots have
recorded distances `[-50, -10, 30, 70]` in original order and net
vertical displacement `dy = 20`, `onEnd` yields `spliceIndex = 2` and
`insertBefore` = the 3rd snapshot's node. -/
theorem reorder_example_amended :
    reorderOnEnd ⟨⟨0, 0, 0⟩, ⟨0, 20, 100⟩, ⟨0, 0, 0⟩, 0, 0⟩
        [⟨0, -50⟩, ⟨1, -10⟩, ⟨2, 30⟩, ⟨3, 70⟩] 0 false
      = ⟨[Ev.reorder 2 0 (some 2)], StateId.idle, false⟩ := by
  norm_num [reorderOnEnd, getTotalMovement, spliceIndexOf, downScan, insertBeforeOf]

/-- C4, counterexample: the claim says `originalIndex` is a 1-based count
among element-type siblings. For a target that is the first of two
element children, the 1-based count is 1, but `findIndex` returns 0. -/
theorem findIndex_counterexample :
    findIndex 5 [⟨1, 5⟩, ⟨1, 6⟩] = 0 ∧ findIndex 5 [⟨1, 5⟩, ⟨1, 6⟩] ≠ 1 := by
  decide

/-- C4, amended: the `originalIndex` recorded for the swipe and reorder
payloads is the subject's 0-BASED index among element-type siblings: for
every split of the scanned node list as `pre ++ target :: post` where the
target is element-type and no later node matches it, `findIndex` returns
the number of element-type nodes before the target. -/
theorem findIndex_zero_based (tid : Nat) (pre post : List DomNode) (t : DomNode)
    (ht : t.nodeType = 1) (hid : t.id = tid)
    (hpost : ∀ n ∈ post, ¬(n.nodeType = 1 ∧ n.id = tid)) :
    findIndex tid (pre ++ t :: post) = elemCount pre := by
  rw [findIndex, findIndexAux_append_target tid t post ht hid hpost pre 0 0]
  exact Nat.zero_add _

/-- C4, witness: the target (id 7) preceded by one element node and one
text node (`nodeType 3`), followed by another element node: its
element-sibling index is 1. -/
theorem findIndex_zero_based_witness :
    findIndex 7 ([⟨1, 4⟩, ⟨3, 5⟩] ++ ⟨1, 7⟩ :: [⟨1, 8⟩]) = elemCount [⟨1, 4⟩, ⟨3, 5⟩] :=
  findIndex_zero_based 7 [⟨1, 4⟩, ⟨3, 5⟩] [⟨1, 8⟩] ⟨1, 7⟩ rfl rfl (by decide)

/-- C10: when the subject node is absent from the node list scanned for
indexing (as happens when the subject matches one of the
`ignoredElements` selectors and the filtered query excludes it during
Reordering setup), `findIndex` returns its fallback 0, so the payload
reports `originalIndex = 0` instead of failing. -/
theorem findIndex_absent_fallback (tid : Nat) (nodes : List DomNode)
    (h : ∀ n ∈ nodes, n.id ≠ tid) :
    findIndex tid nodes = 0 := by
  rw [findIndex]
  exact findIndexAux_no_match tid nodes 0 0 (fun n hn hc => h n hn hc.2)

/-- C10, witness: a subject with id 7 excluded from the scanned list of
three element children. -/
theorem findIndex_absent_fallback_witness :
    findIndex 7 [⟨1, 1⟩, ⟨1, 2⟩, ⟨1, 3⟩] = 0 :=
  findIndex_absent_fallback 7 [⟨1, 1⟩, ⟨1, 2⟩, ⟨1, 3⟩] (by decide)

/-- C5, counterexample: the claim computes the swiped percentage from the
net horizontal displacement (`latest.x - start.x`). With start `(0,0,0)`,
velocity sample `previousPosition = (10,0,50)`, latest `(50,0,200)`,
container width 100 and `keepSwipingPercent = 30`: the claimed percentage
is `|50 - 0| / 100 × 100 = 50 > 30`, so the claim confirms the swipe —
but the code computes `|0 - 10| / 100 × 100 = 10 ≤ 30` (velocity
`50/200 = 0.25 ≤ 1` fails too) and dispatches `cancelswipe`. -/
theorem swipe_confirmation_counterexample :
    |(50 : ℚ) - 0| / 100 * 100 > 30 ∧
    (swipeOnEnd ⟨⟨0, 0, 0⟩, ⟨50, 0, 200⟩, ⟨10, 0, 50⟩, 0, 0⟩ ⟨30, 1, 110⟩ 100 0 false).events
      = [Ev.cancelswipe] := by
  constructor
  · norm_num
  · norm_num [swipeOnEnd, getAbsoluteMovement, getTotalMovement, abs_of_nonneg]

/-- C5, amended: in Swiping's `onEnd`, velocity is `|dx| / dt` and the
swiped percentage is `|startPosition.x - previousPosition.x| / container
width × 100` — computed from the ~100ms velocity sample, NOT the net
horizontal displacement; the swipe is confirmed (the `swipe` notification
dispatched) iff velocity exceeds `minimumSwipeVelocity` and the elapsed
time exceeds `minimumSwipeTime`, or `keepSwipingPercent` is nonzero and
that percentage exceeds it; otherwise `cancelswipe` is dispatched.
(Stated for sessions with positive elapsed time, where the rational
embedding of the division is faithful.) -/
theorem swipe_confirmation_amended (m : Motion) (opts : SOptions) (clientWidth : ℚ)
    (oi : Nat) (veto : Bool)
    (ht : 0 < m.latestPosition.time - m.startPosition.time) :
    ((swipeOnEnd m opts clientWidth oi veto).events
        = [Ev.swipe (if m.latestPosition.x - m.startPosition.x < 0 then "left" else "right") oi]
      ↔ ((|m.latestPosition.x - m.startPosition.x| / (m.latestPosition.time - m.startPosition.time)
            > opts.minimumSwipeVelocity ∧
          m.latestPosition.time - m.startPosition.time > opts.minimumSwipeTime) ∨
         (opts.keepSwipingPercent ≠ 0 ∧
          |(m.startPosition.x - m.previousPosition.x) / clientWidth| * 100
            > opts.keepSwipingPercent))) ∧
    ((swipeOnEnd m opts clientWidth oi veto).events = [Ev.cancelswipe]
      ↔ ¬ (((|m.latestPosition.x - m.startPosition.x| / (m.latestPosition.time - m.startPosition.time)
            > opts.minimumSwipeVelocity ∧
          m.latestPosition.time - m.startPosition.time > opts.minimumSwipeTime) ∨
         (opts.keepSwipingPercent ≠ 0 ∧
          |(m.startPosition.x - m.previousPosition.x) / clientWidth| * 100
            > opts.keepSwipingPercent)))) := by
  rw [swipeOnEnd]
  simp only [getAbsoluteMovement, getTotalMovement]
  split
  case isTrue h => exact ⟨iff_of_true rfl h, iff_of_false (by simp) (not_not_intro h)⟩
  case isFalse h => exact ⟨iff_of_false (by simp) h, iff_of_true rfl h⟩

/-- C5, witness: the spec's own example — velocity 2px/ms over 150ms with
the default options (`minimumSwipeVelocity` 1, `minimumSwipeTime` 110,
`keepSwipingPercent` 0) confirms the swipe. -/
theorem swipe_confirmation_witness :
    (swipeOnEnd ⟨⟨0, 0, 0⟩, ⟨300, 0, 150⟩, ⟨0, 0, 0⟩, 0, 0⟩ ⟨0, 1, 110⟩ 500 4 false).events
      = [Ev.swipe "right" 4] := by
  have h := swipe_confirmation_amended ⟨⟨0, 0, 0⟩, ⟨300, 0, 150⟩, ⟨0, 0, 0⟩, 0, 0⟩
    ⟨0, 1, 110⟩ 500 4 false (by norm_num)
  have hc := h.1.mpr (Or.inl ⟨by norm_num, by norm_num⟩)
  norm_num at hc
  exact hc

/-- C6: in Undecided's `onMove`, whenever the absolute horizontal
displacement exceeds 20px and the vertical displacement is below
`max(100, item height)`, `beforeswipe` (with the inferred directions) is
dispatched and, if not vetoed, the state becomes Swiping with the event
consumed (the handler returns `false`), while a veto sends the state to
Idle; otherwise, when the vertical displacement exceeds 20px, the state
becomes Idle with no notification dispatched. -/
theorem undecided_onmove_spec (m : Motion) (height : ℚ) (veto : Bool) :
    ((getAbsoluteMovement m).x > 20 ∧ (getAbsoluteMovement m).y < max 100 height →
      Ev.beforeswipe (getAbsoluteMovement m).directionX (getAbsoluteMovement m).directionY
          ∈ (undecidedOnMove m height veto).events ∧
      (veto = false → (undecidedOnMove m height veto).next = StateId.swipe ∧
        (undecidedOnMove m height veto).returnedFalse = true) ∧
      (veto = true → (undecidedOnMove m height veto).next = StateId.idle)) ∧
    (¬((getAbsoluteMovement m).x > 20 ∧ (getAbsoluteMovement m).y < max 100 height) →
      (getAbsoluteMovement m).y > 20 →
      (undecidedOnMove m height veto).next = StateId.idle ∧
      (undecidedOnMove m height veto).events = []) := by
  constructor
  · intro hcond
    rw [undecidedOnMove]
    simp only [hcond, if_true]
    cases veto with
    | false => simp
    | true => simp
  · intro hcond hy
    rw [undecidedOnMove]
    simp only [hcond, if_false, hy, if_true]
    simp

/-- C7, counterexample: for any end event in Reordering, `onEnd` returns
`false`, which makes the caller (`onMouseUp`/`onTouchEnd`) call
`preventDefault` — i.e. the handler signals "consumed", not "not
consumed" as the claim states. Shown at a concrete session. -/
theorem reorder_onend_counterexample :
    ¬ (onEndPreventsDefault
        (reorderOnEnd ⟨⟨0, 0, 0⟩, ⟨0, 0, 0⟩, ⟨0, 0, 0⟩, 0, 0⟩ [] 0 false).ret = false) := by
  decide

/-- C7, amended: for every end event received in Reordering, `onEnd`
dispatches exactly one `reorder` notification carrying the splice index,
original index and insert-before node, transitions to Idle independently
of whether the notification is vetoed, and always returns `false` — the
CONSUMED signal (the caller calls `preventDefault`). -/
theorem reorder_onend_amended (m : Motion) (otherNodes : List ONode) (oi : Nat)
    (veto veto' : Bool) :
    (reorderOnEnd m otherNodes oi veto).events
      = [Ev.reorder (spliceIndexOf otherNodes (getTotalMovement m).y) oi
          (insertBeforeOf otherNodes (spliceIndexOf otherNodes (getTotalMovement m).y))] ∧
    (reorderOnEnd m otherNodes oi veto).next = StateId.idle ∧
    reorderOnEnd m otherNodes oi veto' = reorderOnEnd m otherNodes oi veto ∧
    onEndPreventsDefault (reorderOnEnd m otherNodes oi veto).ret = true := by
  exact ⟨rfl, rfl, rfl, rfl⟩

/-- C8: calling `cancel()` any number of times while the session is in
Idle is a no-op — the session is unchanged and nothing runs: no
`leaveState`, no state constructor, no dispatched notification (and the
embedded `setState` is a total function, so no error is thrown). -/
theorem cancel_idle_noop (n : Nat) (s : Sess) (h : s.stateCtor = StateId.idle) :
    cancelIter n s = (s, []) := by
  induction n with
  | zero => rfl
  | succ n ih =>
    rw [cancelIter]
    have h1 : cancelWithActs s = (s, []) := by
      rw [cancelWithActs, if_pos h]
    rw [h1]
    show ((cancelIter n s).1, [] ++ (cancelIter n s).2) = (s, [])
    rw [ih]
    rfl

/-- C8, witness: five repeated `cancel()` calls on a fresh (idle) session. -/
theorem cancel_idle_noop_witness : cancelIter 5 initSess = (initSess, []) :=
  cancel_idle_noop 5 initSess rfl

/-! ## Session invariant lemmas (C9) -/

theorem sessInv_of_fields {s : Sess} (h : SessInv s) {s' : Sess}
    (ht : s'.target = s.target) (hc : s'.stateCtor = s.stateCtor) : SessInv s' := by
  rw [SessInv, ht, hc]
  exact h

theorem goIdle_inv {s : Sess} (h : SessInv s) : SessInv (goIdle s) := by
  rw [goIdle, cancelWithActs]
  by_cases hc : s.stateCtor = StateId.idle
  · rw [if_pos hc]
    exact h
  · rw [if_neg hc]
    rw [SessInv, idleInit]
    simp

theorem leaveState_target (s : Sess) : (leaveState s).target = s.target := by
  rw [leaveState]
  cases s.stateCtor <;> rfl

theorem leaveState_stateCtor (s : Sess) : (leaveState s).stateCtor = s.stateCtor := by
  rw [leaveState]
  cases hc : s.stateCtor <;> simp [hc]

theorem undecidedEntry_inv {s : Sess} (vw vr : Bool) (h : s.target.isSome = true) :
    SessInv (undecidedEntry s vw vr) := by
  rw [undecidedEntry]
  by_cases hw : vw = true
  · by_cases hr : vr = true
    · simp only [hw, if_true, hr, Bool.not_true, Bool.false_eq_true, if_false]
      rw [SessInv]
      simpa using h
    · simp only [hw, if_true, Bool.not_eq_true] at *
      simp only [hr, Bool.not_false, if_true]
      rw [SessInv]
      simpa using h
  · simp only [Bool.not_eq_true] at hw
    simp only [hw, Bool.false_eq_true, if_false]
    rw [SessInv]
    simpa using h

theorem startAtPosition_inv {s : Sess} (pos : Pos) (vw vr : Bool)
    (h : s.target.isSome = true) : SessInv (startAtPosition s pos vw vr) := by
  rw [startAtPosition]
  by_cases hc : s.stateCtor = StateId.undecided
  · simp only [hc, if_true]
    rw [SessInv]
    simpa [hc] using h
  · simp only [hc, if_false]
    apply undecidedEntry_inv
    rw [leaveState_target]
    exact h

theorem updatePositionCore_inv {s1 : Sess} (v : Bool) (h : SessInv s1) :
    SessInv (updatePositionCore s1 v) := by
  unfold updatePositionCore
  split
  · exact h
  · next heq =>
    show SessInv
      (if (undecidedOnMove s1.motionOf s1.heightOf v).next = StateId.idle then goIdle s1
      else if (undecidedOnMove s1.motionOf s1.heightOf v).next = StateId.undecided then s1
      else { leaveState s1 with stateCtor := (undecidedOnMove s1.motionOf s1.heightOf v).next })
    by_cases h1 : (undecidedOnMove s1.motionOf s1.heightOf v).next = StateId.idle
    · rw [if_pos h1]
      exact goIdle_inv h
    · rw [if_neg h1]
      by_cases h2 : (undecidedOnMove s1.motionOf s1.heightOf v).next = StateId.undecided
      · rw [if_pos h2]
        exact h
      · rw [if_neg h2]
        show (leaveState s1).target.isSome = true
          ↔ (undecidedOnMove s1.motionOf s1.heightOf v).next ≠ StateId.idle
        rw [leaveState_target]
        exact iff_of_true (h.mpr (by simp [heq])) h1
  · show SessInv
      (if s1.heightOf ≠ 0 ∧ |(getTotalMovement s1.motionOf).y| < s1.heightOf + 20 then s1
      else goIdle s1)
    split
    · exact h
    · exact goIdle_inv h
  · exact sessInv_of_fields h rfl rfl

theorem updatePosition_inv {s : Sess} (pos : Pos) (v : Bool) (h : SessInv s) :
    SessInv (updatePosition s pos v) := by
  rw [updatePosition]
  by_cases hn : s.target.isNone = true
  · rw [if_pos hn]
    exact h
  · rw [if_neg hn]
    have hinv1 : SessInv { s with latestPosition := pos } := sessInv_of_fields h rfl rfl
    have hmain := updatePositionCore_inv v hinv1
    show SessInv
      (if pos.time - (updatePositionCore { s with latestPosition := pos } v).previousPosition.time
          > 100 then
        { updatePositionCore { s with latestPosition := pos } v with previousPosition := pos }
      else updatePositionCore { s with latestPosition := pos } v)
    split
    · exact sessInv_of_fields hmain rfl rfl
    · exact hmain

theorem holdTimerBody_inv {s1 : Sess} (vr : Bool) (h : SessInv s1)
    (hne : s1.stateCtor ≠ StateId.idle) : SessInv (holdTimerBody s1 vr) := by
  unfold holdTimerBody
  split
  · split
    · exact h
    · show (leaveState s1).target.isSome = true ↔ StateId.reorder ≠ StateId.idle
      rw [leaveState_target]
      exact iff_of_true (h.mpr hne) (by intro hx; cases hx)
  · exact h

theorem onEndOf_inv {s : Sess} (h : SessInv s) : SessInv (onEndOf s) := by
  rw [onEndOf]
  cases hc : s.stateCtor with
  | idle => exact h
  | undecided => exact goIdle_inv h
  | swipe => exact goIdle_inv h
  | reorder => exact goIdle_inv h

/-- C9: the session invariant "the Target exists iff the current state is
not Idle" is preserved by every input-event callback of the session —
entering Idle releases the target, and every path that stores a target
leaves Idle before the callback returns. -/
theorem session_target_iff_active (s : Sess) (inp : Inp) (h : SessInv s) :
    SessInv (step s inp) := by
  cases inp with
  | touchStart multi resolved pos vw vr =>
    have h1 : SessInv { s with usingTouch := true, canPreventScrolling := true } :=
      sessInv_of_fields h rfl rfl
    cases resolved with
    | none =>
      rw [step]
      split
      · exact goIdle_inv h1
      · exact goIdle_inv h1
    | some t =>
      rw [step]
      split
      · exact goIdle_inv h1
      · exact startAtPosition_inv pos vw vr rfl
  | mouseDown button resolved pos vw vr =>
    cases resolved with
    | none =>
      rw [step]
      split
      · exact h
      · exact goIdle_inv h
    | some t =>
      rw [step]
      split
      · exact h
      · exact startAtPosition_inv pos vw vr rfl
  | touchMove pos v =>
    rw [step]
    exact sessInv_of_fields (updatePosition_inv pos v h) rfl rfl
  | mouseMove pos v =>
    rw [step]
    exact updatePosition_inv pos v h
  | touchEnd multi =>
    rw [step]
    split
    · exact goIdle_inv h
    · exact onEndOf_inv h
  | mouseUp button =>
    rw [step]
    split
    · exact h
    · exact onEndOf_inv h
  | inputCancel =>
    rw [step]
    exact goIdle_inv h
  | holdTimerFire vr =>
    rw [step]
    split
    · next hg =>
      have h2 : SessInv { s with holdTimerArmed := false } := sessInv_of_fields h rfl rfl
      have h3 : ({ s with holdTimerArmed := false } : Sess).stateCtor ≠ StateId.idle := by
        show s.stateCtor ≠ StateId.idle
        rw [hg.1]
        intro hx
        cases hx
      exact holdTimerBody_inv vr h2 h3
    · exact h
  | mouseLeaveWindow =>
    rw [step]
    split
    · exact h
    · split
      · exact h
      · exact goIdle_inv h
      · exact onEndOf_inv h
      · exact sessInv_of_fields h rfl rfl
  | graceTimerFire =>
    rw [step]
    split
    · exact goIdle_inv (sessInv_of_fields h rfl rfl)
    · exact h

/-- C9, witness: one concrete callback — a single-touch start resolving a
target on a fresh idle session — preserves the invariant. -/
theorem session_target_iff_active_witness :
    SessInv (step initSess (Inp.touchStart false (some ⟨0, 1, 2, 0, 600, 40⟩) ⟨5, 5, 0⟩ false false)) :=
  session_target_iff_active initSess
    (Inp.touchStart false (some ⟨0, 1, 2, 0, 600, 40⟩) ⟨5, 5, 0⟩ false false)
    (by rw [SessInv]; simp [initSess])

end Slip
